import Mathlib

/-
  Verification development for the raddle.teams websocket subsystem
  (src/backend-rust/src/websocket/manager.rs and its callers).

  The two registries (AdminWebSocketManager, LobbyWebSocketManager) keep
  HashMaps behind tokio RwLocks.  We embed them shallowly and sequentially:
  a HashMap becomes an association list with replace-on-insert semantics
  (a HashMap never holds two entries with the same key; iteration order is
  some fixed enumeration of the entries, which the association-list order
  stands for).  Lobby ids are i32 in the source but are only ever compared
  for equality, so Int is a faithful carrier.  A websocket sink is opaque to
  the registry logic and is represented by a Nat token.  Effects (send
  attempts over the transport, closing a sink, logging a send error) become
  explicit Output values; a transport failure model is passed in as a
  function from recipient to Bool, since the registries treat the result of
  each send only by logging it.

  Lock behaviour (guard scopes in the Rust source) is embedded separately
  as traces of lock events, read off the guard scopes of the source
  functions, with a small single-task interpreter.
-/

namespace RaddleTeams

section AssocHelpers

variable {α : Type} {β : Type} [DecidableEq α]

/-- Association-list lookup: the value of the first entry with the key,
mirroring HashMap::get. -/
def lookupA : List (α × β) → α → Option β
  | [], _ => none
  | (k, v) :: rest, key => if k = key then some v else lookupA rest key

/-- Association-list insert with HashMap::insert semantics: replace the
entry with the key when present, otherwise append a new entry. -/
def insertA : List (α × β) → α → β → List (α × β)
  | [], key, val => [(key, val)]
  | (k, v) :: rest, key, val =>
      if k = key then (key, val) :: rest else (k, v) :: insertA rest key val

/-- Association-list removal with HashMap::remove semantics: drop the entry
with the key when present. -/
def removeA : List (α × β) → α → List (α × β)
  | [], _ => []
  | (k, v) :: rest, key => if k = key then rest else (k, v) :: removeA rest key

/-- Update the entry with the key in place when present (the HashMap::get
followed by mutation through the reference pattern of the source). -/
def updateA : List (α × β) → α → (β → β) → List (α × β)
  | [], _, _ => []
  | (k, v) :: rest, key, f =>
      if k = key then (key, f v) :: rest else (k, v) :: updateA rest key f

/-- Keys of an association list are pairwise distinct (every HashMap
enumeration has this shape). -/
def NodupKeys (l : List (α × β)) : Prop := (l.map Prod.fst).Nodup

instance (l : List (α × β)) : Decidable (NodupKeys l) := by
  unfold NodupKeys; infer_instance

end AssocHelpers

/- ===================== events (websocket/events.rs) ===================== -/

/-- Wire shape shared by JoinedLobbyEvent, DisconnectedLobbyEvent,
PlayerKickedEvent and TeamAssignedEvent in websocket/events.rs: an
event_type tag, the lobby id and the player session id.  Serialization of
these plain structs cannot fail, so serialization is modelled as total. -/
structure WsEvent where
  event_type : String
  lobby_id : Int
  player_session_id : String
deriving DecidableEq

/-- PlayerKickedEvent::new from websocket/events.rs. -/
def PlayerKickedEvent.new (lobby_id : Int) (player_session_id : String) : WsEvent :=
  ⟨"player_kicked", lobby_id, player_session_id⟩

/-- TeamAssignedEvent::new from websocket/events.rs. -/
def TeamAssignedEvent.new (lobby_id : Int) (player_session_id : String) : WsEvent :=
  ⟨"team_assigned", lobby_id, player_session_id⟩

/-- A delivery target: a player connection keyed by (lobby id, session id)
or an admin connection keyed by web session id. -/
inductive Recipient
  | player (lobby_id : Int) (session_id : String)
  | admin (web_session_id : String)
deriving DecidableEq

/-- Observable effects of registry operations: a transport send attempt to
a recipient, closing a player's sink (kick), or logging a failed send. -/
inductive Output
  | sendAttempt (r : Recipient) (e : WsEvent)
  | closeConn (lobby_id : Int) (session_id : String)
  | logSendError (r : Recipient)
deriving DecidableEq

/-- The transport failure model: which recipients' sends fail.  The source
only logs the error of a failed send, so this is all the state a send
outcome can influence. -/
def neverFails : Recipient → Bool := fun _ => false

/- ================ AdminWebSocketManager (manager.rs) ================ -/

/-- AdminConnection from manager.rs: an outbound sink (opaque token here)
plus the Vec of subscribed lobby ids. -/
structure AdminConnection where
  sender : Nat
  subscribed_lobbies : List Int
deriving DecidableEq

/-- AdminWebSocketManager from manager.rs: web_session_id keyed map of
admin connections. -/
structure AdminWebSocketManager where
  connections : List (String × AdminConnection)
deriving DecidableEq

/-- AdminWebSocketManager::connect: unconditionally insert a fresh
connection with an empty subscription list under the web session id. -/
def AdminWebSocketManager.connect (m : AdminWebSocketManager)
    (web_session_id : String) (sender : Nat) : AdminWebSocketManager :=
  ⟨insertA m.connections web_session_id ⟨sender, []⟩⟩

/-- AdminWebSocketManager::disconnect: remove the entry for the web
session id. -/
def AdminWebSocketManager.disconnect (m : AdminWebSocketManager)
    (web_session_id : String) : AdminWebSocketManager :=
  ⟨removeA m.connections web_session_id⟩

/-- AdminWebSocketManager::subscribe_to_lobby: when the session is
registered and the lobby id is not yet in its subscription list, push the
lobby id; otherwise leave everything unchanged. -/
def AdminWebSocketManager.subscribe_to_lobby (m : AdminWebSocketManager)
    (web_session_id : String) (lobby_id : Int) : AdminWebSocketManager :=
  ⟨updateA m.connections web_session_id (fun c =>
    if lobby_id ∈ c.subscribed_lobbies then c
    else { c with subscribed_lobbies := c.subscribed_lobbies ++ [lobby_id] })⟩

/-- AdminWebSocketManager::unsubscribe_from_lobby: when the session is
registered, retain only the subscription entries different from the lobby
id; otherwise leave everything unchanged. -/
def AdminWebSocketManager.unsubscribe_from_lobby (m : AdminWebSocketManager)
    (web_session_id : String) (lobby_id : Int) : AdminWebSocketManager :=
  ⟨updateA m.connections web_session_id (fun c =>
    { c with subscribed_lobbies :=
        c.subscribed_lobbies.filter (fun id => id ≠ lobby_id) })⟩

/-- The admins a broadcast for the lobby reaches: every registered
connection whose subscription list contains the lobby id. -/
def AdminWebSocketManager.subscribers (m : AdminWebSocketManager)
    (lobby_id : Int) : List (String × AdminConnection) :=
  m.connections.filter (fun p => lobby_id ∈ p.2.subscribed_lobbies)

/-- The send loop body both broadcast functions share: attempt one send
per recipient in order; a failed send appends only a log entry and the loop
continues. -/
def sendAll (rs : List Recipient) (e : WsEvent) (fails : Recipient → Bool) :
    List Output :=
  rs.flatMap (fun r =>
    Output.sendAttempt r e :: (if fails r then [Output.logSendError r] else []))

/-- AdminWebSocketManager::broadcast_to_lobby: snapshot the subscribed
admins under the registry read lock, drop it, then attempt one send per
recipient; a failed send only logs.  The registry map is never mutated, so
the state component is the input state. -/
def AdminWebSocketManager.broadcast_to_lobby (m : AdminWebSocketManager)
    (lobby_id : Int) (e : WsEvent) (fails : Recipient → Bool) :
    AdminWebSocketManager × List Output :=
  (m, sendAll ((m.subscribers lobby_id).map (fun p => Recipient.admin p.1)) e fails)

/- ================ LobbyWebSocketManager (manager.rs) ================ -/

/-- LobbyWebSocketManager from manager.rs: lobby_id keyed map of
(player_session_id keyed) buckets of sinks, plus the admin manager the
lobby-level broadcast also notifies. -/
structure LobbyWebSocketManager where
  connections : List (Int × List (String × Nat))
  admin_manager : AdminWebSocketManager
deriving DecidableEq

/-- The bucket of a lobby, defaulting to empty when the lobby id is not in
the map. -/
def LobbyWebSocketManager.bucketOf (m : LobbyWebSocketManager)
    (lobby_id : Int) : List (String × Nat) :=
  (lookupA m.connections lobby_id).getD []

/-- LobbyWebSocketManager::connect: entry(lobby_id).or_insert(empty) then
insert the sink under the session id, replacing any prior entry for that
exact key. -/
def LobbyWebSocketManager.connect (m : LobbyWebSocketManager)
    (lobby_id : Int) (player_session_id : String) (sender : Nat) :
    LobbyWebSocketManager :=
  let bucket := insertA (m.bucketOf lobby_id) player_session_id sender
  { m with connections := insertA m.connections lobby_id bucket }

/-- LobbyWebSocketManager::disconnect: when the lobby is present, remove
the session's entry from its bucket and, when the bucket has become empty,
remove the bucket itself; absent lobby means no change. -/
def LobbyWebSocketManager.disconnect (m : LobbyWebSocketManager)
    (lobby_id : Int) (player_session_id : String) : LobbyWebSocketManager :=
  match lookupA m.connections lobby_id with
  | none => m
  | some lobby =>
      let lobby' := removeA lobby player_session_id
      if lobby'.isEmpty then
        { m with connections := removeA m.connections lobby_id }
      else
        { m with connections := insertA m.connections lobby_id lobby' }

/-- LobbyWebSocketManager::send_to_player: when the (lobby, session) key is
registered, attempt one send to it, logging a transport failure; otherwise
nothing happens.  The registry map is never mutated. -/
def LobbyWebSocketManager.send_to_player (m : LobbyWebSocketManager)
    (lobby_id : Int) (player_session_id : String) (e : WsEvent)
    (fails : Recipient → Bool) : LobbyWebSocketManager × List Output :=
  match lookupA (m.bucketOf lobby_id) player_session_id with
  | none => (m, [])
  | some _ =>
      (m, Output.sendAttempt (Recipient.player lobby_id player_session_id) e ::
        (if fails (Recipient.player lobby_id player_session_id) then
          [Output.logSendError (Recipient.player lobby_id player_session_id)] else []))

/-- LobbyWebSocketManager::broadcast_to_lobby: attempt one send per
connection in the lobby's bucket (failures only log), then always also run
the admin manager's broadcast for the lobby.  The registry maps are never
mutated. -/
def LobbyWebSocketManager.broadcast_to_lobby (m : LobbyWebSocketManager)
    (lobby_id : Int) (e : WsEvent) (fails : Recipient → Bool) :
    LobbyWebSocketManager × List Output :=
  (m, sendAll ((m.bucketOf lobby_id).map (fun p => Recipient.player lobby_id p.1)) e fails
      ++ (m.admin_manager.broadcast_to_lobby lobby_id e fails).2)

/-- The middle step of LobbyWebSocketManager::kick_player: under the
registry write lock, remove the session from the lobby's bucket when
present and close its sink.  Note the source does not remove the bucket
when it becomes empty here (unlike disconnect). -/
def LobbyWebSocketManager.kick_remove (m : LobbyWebSocketManager)
    (lobby_id : Int) (player_session_id : String) :
    LobbyWebSocketManager × List Output :=
  match lookupA m.connections lobby_id with
  | none => (m, [])
  | some lobby =>
      match lookupA lobby player_session_id with
      | none => (m, [])
      | some _ =>
          ({ m with connections :=
              insertA m.connections lobby_id (removeA lobby player_session_id) },
           [Output.closeConn lobby_id player_session_id])

/-- LobbyWebSocketManager::kick_player: best-effort send of the
player_kicked event to the target, then — under the registry write guard —
removal and close of the target's connection.  The source then calls
broadcast_to_lobby for the same event, but that call re-acquires the
registry read lock while kick_player's function-scoped write guard is
still held (see kickLockTrace and execTrace below), so the broadcast's
sends can never be performed: the outputs collected here are the ones the
task performs before blocking there, and the state component is the
registry state it leaves behind. -/
def LobbyWebSocketManager.kick_player (m : LobbyWebSocketManager)
    (lobby_id : Int) (player_session_id : String) (fails : Recipient → Bool) :
    LobbyWebSocketManager × List Output :=
  let kick_event := PlayerKickedEvent.new lobby_id player_session_id
  let outs1 := (m.send_to_player lobby_id player_session_id kick_event fails).2
  let step2 := m.kick_remove lobby_id player_session_id
  (step2.1, outs1 ++ step2.2)

/-- The recipients a lobby-level broadcast reaches: the players in the
lobby's bucket and the admins subscribed to the lobby. -/
def LobbyWebSocketManager.recipients (m : LobbyWebSocketManager)
    (lobby_id : Int) : List Recipient :=
  (m.bucketOf lobby_id).map (fun p => Recipient.player lobby_id p.1)
    ++ (m.admin_manager.subscribers lobby_id).map (fun p => Recipient.admin p.1)

/-- The broadcast loop of the create_teams route handler
(routes/admin/team.rs, success path): one broadcast_to_lobby call per
player of the lobby, each carrying a team_assigned event with that
player's session id. -/
def create_teams_broadcasts (m : LobbyWebSocketManager) (lobby_id : Int)
    (players : List String) (fails : Recipient → Bool) : List Output :=
  players.flatMap (fun sid =>
    (m.broadcast_to_lobby lobby_id (TeamAssignedEvent.new lobby_id sid) fails).2)

/-- The empty manager (both registries empty). -/
def emptyManager : LobbyWebSocketManager := ⟨[], ⟨[]⟩⟩

/-- The events of a batch of outputs that were addressed to the given
recipient, in order. -/
def deliveredTo (outs : List Output) (r : Recipient) : List WsEvent :=
  outs.filterMap (fun o =>
    match o with
    | Output.sendAttempt r' e => if r' = r then some e else none
    | _ => none)

/-- The recipients of all send attempts in a batch of outputs, in order. -/
def sendTargets (outs : List Output) : List Recipient :=
  outs.filterMap (fun o =>
    match o with
    | Output.sendAttempt r _ => some r
    | _ => none)

/-- A (lobby, session) key is currently registered in the player
registry. -/
def LobbyWebSocketManager.present (m : LobbyWebSocketManager)
    (lobby_id : Int) (player_session_id : String) : Bool :=
  (lookupA (m.bucketOf lobby_id) player_session_id).isSome

/-- The player registry holds no empty lobby bucket. -/
def noEmptyBuckets (m : LobbyWebSocketManager) : Prop :=
  ∀ p ∈ m.connections, p.2 ≠ []

instance (m : LobbyWebSocketManager) : Decidable (noEmptyBuckets m) := by
  unfold noEmptyBuckets; infer_instance

/-- Well-formedness every HashMap-backed state has: lobby keys are
pairwise distinct and so are the session keys inside each bucket. -/
def RegistryWF (m : LobbyWebSocketManager) : Prop :=
  NodupKeys m.connections ∧ ∀ p ∈ m.connections, NodupKeys p.2

/-- Each admin's subscription list is duplicate-free. -/
def SubsNodup (m : AdminWebSocketManager) : Prop :=
  ∀ p ∈ m.connections, p.2.subscribed_lobbies.Nodup

instance (a : AdminWebSocketManager) : Decidable (SubsNodup a) := by
  unfold SubsNodup; infer_instance

/- ============ connect/disconnect sequences (for C4) ============ -/

/-- An operation of a player-registry history. -/
inductive PlayerOp
  | connect (lobby_id : Int) (session_id : String) (sender : Nat)
  | disconnect (lobby_id : Int) (session_id : String)
deriving DecidableEq

/-- Apply one history operation. -/
def applyOp (m : LobbyWebSocketManager) : PlayerOp → LobbyWebSocketManager
  | PlayerOp.connect l s n => m.connect l s n
  | PlayerOp.disconnect l s => m.disconnect l s

/-- Apply a history left to right. -/
def applyOps (m : LobbyWebSocketManager) (ops : List PlayerOp) :
    LobbyWebSocketManager :=
  ops.foldl applyOp m

/-- Fold a history over a presence bit for one key: a connect of the key
sets it, a disconnect of the key clears it, other operations keep it. -/
def lastOpFold (ops : List PlayerOp) (l : Int) (s : String) (b : Bool) : Bool :=
  ops.foldl (fun acc op =>
    match op with
    | PlayerOp.connect l' s' _ => if l' = l ∧ s' = s then true else acc
    | PlayerOp.disconnect l' s' => if l' = l ∧ s' = s then false else acc) b

/-- The last operation of the history touching the key is a connect. -/
def lastOpConnect (ops : List PlayerOp) (l : Int) (s : String) : Bool :=
  lastOpFold ops l s false

/- ============ lock traces (guard scopes of manager.rs) ============ -/

/-- The RwLocks of manager.rs: the player registry map, the admin registry
map, and one lock per stored connection (collapsing the per-connection
outer lock and its sender lock, which are always taken together and
nested). -/
inductive LockId
  | playerRegistry
  | adminRegistry
  | connLock (r : Recipient)
deriving DecidableEq

/-- One step of a single task's lock behaviour: acquiring a lock for read
or write, releasing it (guard drop), attempting a transport send, or
closing a sink. -/
inductive LockEvent
  | acquireRead (l : LockId)
  | acquireWrite (l : LockId)
  | release (l : LockId)
  | sendOn (r : Recipient)
  | closeOn (r : Recipient)
deriving DecidableEq

/-- Lock trace of AdminWebSocketManager::broadcast_to_lobby: the registry
read guard is taken, each connection's lock is read-held briefly while the
subscription check builds the recipient snapshot, the registry guard is
dropped explicitly, and only then is each snapshotted recipient's own lock
write-held around its send. -/
def adminBroadcastLockTrace (a : AdminWebSocketManager) (lobby_id : Int) :
    List LockEvent :=
  [LockEvent.acquireRead LockId.adminRegistry]
    ++ a.connections.flatMap (fun p =>
        [LockEvent.acquireRead (LockId.connLock (Recipient.admin p.1)),
         LockEvent.release (LockId.connLock (Recipient.admin p.1))])
    ++ [LockEvent.release LockId.adminRegistry]
    ++ (a.subscribers lobby_id).flatMap (fun p =>
        [LockEvent.acquireWrite (LockId.connLock (Recipient.admin p.1)),
         LockEvent.sendOn (Recipient.admin p.1),
         LockEvent.release (LockId.connLock (Recipient.admin p.1))])

/-- Lock trace of LobbyWebSocketManager::broadcast_to_lobby: the registry
read guard is a function-scoped local, so it is dropped only at the end of
the function — after every player send and after the nested admin
broadcast.  Each send write-holds only that sender's own lock. -/
def playerBroadcastLockTrace (m : LobbyWebSocketManager) (lobby_id : Int) :
    List LockEvent :=
  [LockEvent.acquireRead LockId.playerRegistry]
    ++ (match lookupA m.connections lobby_id with
        | none => []
        | some lobby => lobby.flatMap (fun p =>
            [LockEvent.acquireWrite (LockId.connLock (Recipient.player lobby_id p.1)),
             LockEvent.sendOn (Recipient.player lobby_id p.1),
             LockEvent.release (LockId.connLock (Recipient.player lobby_id p.1))]))
    ++ adminBroadcastLockTrace m.admin_manager lobby_id
    ++ [LockEvent.release LockId.playerRegistry]

/-- Lock trace of LobbyWebSocketManager::send_to_player: registry read
guard around the lookup and the (optional) send, the sender's own lock
write-held around the send. -/
def sendToPlayerLockTrace (m : LobbyWebSocketManager) (lobby_id : Int)
    (player_session_id : String) : List LockEvent :=
  [LockEvent.acquireRead LockId.playerRegistry]
    ++ (match lookupA (m.bucketOf lobby_id) player_session_id with
        | none => []
        | some _ =>
            [LockEvent.acquireWrite (LockId.connLock (Recipient.player lobby_id player_session_id)),
             LockEvent.sendOn (Recipient.player lobby_id player_session_id),
             LockEvent.release (LockId.connLock (Recipient.player lobby_id player_session_id))])
    ++ [LockEvent.release LockId.playerRegistry]

/-- Lock trace of LobbyWebSocketManager::kick_player: the notify step,
then the registry write guard — a function-scoped local dropped only at
the end of the function — around removal and close, then the nested
broadcast call, which re-acquires the registry read lock while the write
guard is still held. -/
def kickLockTrace (m : LobbyWebSocketManager) (lobby_id : Int)
    (player_session_id : String) : List LockEvent :=
  sendToPlayerLockTrace m lobby_id player_session_id
    ++ [LockEvent.acquireWrite LockId.playerRegistry]
    ++ (match lookupA m.connections lobby_id with
        | none => []
        | some lobby =>
            match lookupA lobby player_session_id with
            | none => []
            | some _ =>
                [LockEvent.acquireWrite (LockId.connLock (Recipient.player lobby_id player_session_id)),
                 LockEvent.closeOn (Recipient.player lobby_id player_session_id),
                 LockEvent.release (LockId.connLock (Recipient.player lobby_id player_session_id))])
    ++ playerBroadcastLockTrace (m.kick_remove lobby_id player_session_id).1 lobby_id
    ++ [LockEvent.release LockId.playerRegistry]

/-- Is some write hold of the lock in the held-guards list? -/
def holdsWrite (held : List (LockId × Bool)) (l : LockId) : Bool :=
  held.any (fun p => p.1 = l ∧ p.2)

/-- Is any hold of the lock in the held-guards list? -/
def holdsAny (held : List (LockId × Bool)) (l : LockId) : Bool :=
  held.any (fun p => p.1 = l)

/-- Run a lock trace as the single task executing it, returning the prefix
of events that actually execute.  tokio RwLock semantics for one task:
acquiring a read blocks for ever when the task itself already write-holds
the lock, acquiring a write blocks for ever when the task already holds the
lock in any mode — there is no one left to release it, so execution stops
there. -/
def execTrace : List LockEvent → List (LockId × Bool) → List LockEvent
  | [], _ => []
  | e :: rest, held =>
      match e with
      | LockEvent.acquireRead l =>
          if holdsWrite held l then []
          else e :: execTrace rest ((l, false) :: held)
      | LockEvent.acquireWrite l =>
          if holdsAny held l then []
          else e :: execTrace rest ((l, true) :: held)
      | LockEvent.release l => e :: execTrace rest (removeA held l)
      | LockEvent.sendOn _ => e :: execTrace rest held
      | LockEvent.closeOn _ => e :: execTrace rest held

/-- One step of tracking whether a watched lock is held (our traces never
hold the same registry lock at two depths while a send happens, so one bit
suffices). -/
def lockStep (watch : LockId) (h : Bool) : LockEvent → Bool
  | LockEvent.acquireRead l => h || decide (l = watch)
  | LockEvent.acquireWrite l => h || decide (l = watch)
  | LockEvent.release l => h && !(decide (l = watch))
  | _ => h

/-- Every send of a trace, each paired with whether the watched lock was
held while it ran. -/
def sendsHeld (watch : LockId) : List LockEvent → Bool → List (Recipient × Bool)
  | [], _ => []
  | e :: tr, h =>
      (match e with
       | LockEvent.sendOn r => [(r, h)]
       | _ => []) ++ sendsHeld watch tr (lockStep watch h e)

/- ===================== association-list lemmas ===================== -/

section AssocLemmas

variable {α : Type} {β : Type} [DecidableEq α]

theorem lookupA_insertA_self (l : List (α × β)) (k : α) (v : β) :
    lookupA (insertA l k v) k = some v := by
  induction l with
  | nil => simp [insertA, lookupA]
  | cons p rest ih =>
      obtain ⟨k₀, v₀⟩ := p
      by_cases h : k₀ = k
      · simp [insertA, h, lookupA]
      · simp [insertA, h, lookupA, ih]

theorem lookupA_insertA_ne (l : List (α × β)) (k k' : α) (v : β)
    (h : k' ≠ k) : lookupA (insertA l k v) k' = lookupA l k' := by
  have hkk : ¬ k = k' := fun hh => h hh.symm
  induction l with
  | nil => simp [insertA, lookupA, hkk]
  | cons p rest ih =>
      obtain ⟨k₀, v₀⟩ := p
      by_cases hk : k₀ = k
      · have hno : ¬ k₀ = k' := by rw [hk]; exact hkk
        simp [insertA, hk, lookupA, hkk, hno]
      · simp [insertA, hk, lookupA, ih]

theorem lookupA_removeA_ne (l : List (α × β)) (k k' : α)
    (h : k' ≠ k) : lookupA (removeA l k) k' = lookupA l k' := by
  induction l with
  | nil => simp [removeA]
  | cons p rest ih =>
      obtain ⟨k₀, v₀⟩ := p
      by_cases hk : k₀ = k
      · have hno : ¬ k₀ = k' := by rw [hk]; exact fun hh => h hh.symm
        simp [removeA, hk, lookupA, hno, Ne.symm h]
      · simp [removeA, hk, lookupA, ih]

theorem removeA_sublist (l : List (α × β)) (k : α) :
    List.Sublist (removeA l k) l := by
  induction l with
  | nil => simp [removeA]
  | cons p rest ih =>
      obtain ⟨k₀, v₀⟩ := p
      by_cases hk : k₀ = k
      · have hr : removeA ((k₀, v₀) :: rest) k = rest := by simp [removeA, hk]
        rw [hr]
        exact List.sublist_cons_self _ _
      · have hr : removeA ((k₀, v₀) :: rest) k = (k₀, v₀) :: removeA rest k := by
          simp [removeA, hk]
        rw [hr]
        exact ih.cons₂ _

theorem mem_removeA {l : List (α × β)} {k : α} {p : α × β}
    (h : p ∈ removeA l k) : p ∈ l :=
  (removeA_sublist l k).mem h

theorem nodupKeys_removeA {l : List (α × β)} (k : α)
    (h : NodupKeys l) : NodupKeys (removeA l k) :=
  ((removeA_sublist l k).map Prod.fst).nodup h

theorem lookupA_eq_none {l : List (α × β)} {k : α} :
    lookupA l k = none ↔ k ∉ l.map Prod.fst := by
  induction l with
  | nil => simp [lookupA]
  | cons p rest ih =>
      obtain ⟨k₀, v₀⟩ := p
      by_cases hk : k₀ = k
      · simp [lookupA, hk]
      · simp [lookupA, hk, ih, Ne.symm hk]

theorem nodup_cons_of_nodupKeys {k₀ : α} {v₀ : β} {rest : List (α × β)}
    (h : NodupKeys ((k₀, v₀) :: rest)) :
    k₀ ∉ rest.map Prod.fst ∧ NodupKeys rest := by
  have h' : (k₀ :: rest.map Prod.fst).Nodup := by simpa [NodupKeys] using h
  exact List.nodup_cons.mp h'

theorem lookupA_removeA_self {l : List (α × β)} {k : α}
    (h : NodupKeys l) : lookupA (removeA l k) k = none := by
  induction l with
  | nil => simp [removeA, lookupA]
  | cons p rest ih =>
      obtain ⟨k₀, v₀⟩ := p
      obtain ⟨hnotin, hrest⟩ := nodup_cons_of_nodupKeys h
      by_cases hk : k₀ = k
      · have : k ∉ rest.map Prod.fst := hk ▸ hnotin
        simp [removeA, hk, lookupA_eq_none.mpr this]
      · simp [removeA, hk, lookupA, hk, ih hrest]

theorem mem_insertA {l : List (α × β)} {k : α} {v : β} {p : α × β}
    (h : p ∈ insertA l k v) : p = (k, v) ∨ p ∈ l := by
  induction l with
  | nil => simpa [insertA] using h
  | cons q rest ih =>
      obtain ⟨k₀, v₀⟩ := q
      by_cases hk : k₀ = k
      · simp [insertA, hk] at h
        rcases h with h | h
        · exact Or.inl (by simp [h])
        · exact Or.inr (by simp [h])
      · simp [insertA, hk] at h
        rcases h with h | h
        · exact Or.inr (by simp [h])
        · rcases ih h with h' | h'
          · exact Or.inl h'
          · exact Or.inr (by simp [h'])

theorem insertA_ne_nil (l : List (α × β)) (k : α) (v : β) :
    insertA l k v ≠ [] := by
  cases l with
  | nil => simp [insertA]
  | cons p rest =>
      obtain ⟨k₀, v₀⟩ := p
      by_cases hk : k₀ = k <;> simp [insertA, hk]

theorem keys_insertA (l : List (α × β)) (k : α) (v : β) :
    (insertA l k v).map Prod.fst =
      if k ∈ l.map Prod.fst then l.map Prod.fst else l.map Prod.fst ++ [k] := by
  induction l with
  | nil => simp [insertA]
  | cons p rest ih =>
      obtain ⟨k₀, v₀⟩ := p
      by_cases hk : k₀ = k
      · simp [insertA, hk]
      · simp only [insertA, hk, if_false, List.map_cons, ih, List.mem_cons]
        have hne : ¬ k = k₀ := fun hh => hk hh.symm
        by_cases hmem : k ∈ rest.map Prod.fst <;> simp [hmem, hne]

theorem nodupKeys_insertA {l : List (α × β)} (k : α) (v : β)
    (h : NodupKeys l) : NodupKeys (insertA l k v) := by
  unfold NodupKeys at h ⊢
  rw [keys_insertA]
  by_cases hc : k ∈ l.map Prod.fst
  · simp [hc, h]
  · simp [hc, List.nodup_append, h]

theorem removeA_of_lookupA_none {l : List (α × β)} {k : α}
    (h : lookupA l k = none) : removeA l k = l := by
  induction l with
  | nil => simp [removeA]
  | cons p rest ih =>
      obtain ⟨k₀, v₀⟩ := p
      by_cases hk : k₀ = k
      · simp [lookupA, hk] at h
      · simp [lookupA, hk] at h
        simp [removeA, hk, ih h]

theorem insertA_of_lookupA_some {l : List (α × β)} {k : α} {v : β}
    (h : lookupA l k = some v) : insertA l k v = l := by
  induction l with
  | nil => simp [lookupA] at h
  | cons p rest ih =>
      obtain ⟨k₀, v₀⟩ := p
      by_cases hk : k₀ = k
      · simp [lookupA, hk] at h
        simp [insertA, hk, h]
      · simp [lookupA, hk] at h
        simp [insertA, hk, ih h]

theorem removeA_eq_nil {l : List (α × β)} {k : α}
    (h : removeA l k = []) : l = [] ∨ ∃ v, l = [(k, v)] := by
  cases l with
  | nil => exact Or.inl rfl
  | cons p rest =>
      obtain ⟨k₀, v₀⟩ := p
      by_cases hk : k₀ = k
      · subst hk
        simp [removeA] at h
        subst h
        exact Or.inr ⟨v₀, rfl⟩
      · simp [removeA, hk] at h

theorem mem_of_lookupA {l : List (α × β)} {k : α} {v : β}
    (h : lookupA l k = some v) : (k, v) ∈ l := by
  induction l with
  | nil => simp [lookupA] at h
  | cons p rest ih =>
      obtain ⟨k₀, v₀⟩ := p
      by_cases hk : k₀ = k
      · simp [lookupA, hk] at h
        simp [hk, h]
      · simp [lookupA, hk] at h
        simp [ih h]

theorem lookupA_updateA_self (l : List (α × β)) (k : α) (f : β → β) :
    lookupA (updateA l k f) k = (lookupA l k).map f := by
  induction l with
  | nil => simp [updateA, lookupA]
  | cons p rest ih =>
      obtain ⟨k₀, v₀⟩ := p
      by_cases hk : k₀ = k
      · simp [updateA, hk, lookupA]
      · simp [updateA, hk, lookupA, ih]

theorem updateA_of_fix {l : List (α × β)} {k : α} {f : β → β}
    (h : ∀ v, lookupA l k = some v → f v = v) : updateA l k f = l := by
  induction l with
  | nil => simp [updateA]
  | cons p rest ih =>
      obtain ⟨k₀, v₀⟩ := p
      by_cases hk : k₀ = k
      · have : f v₀ = v₀ := h v₀ (by simp [lookupA, hk])
        simp [updateA, hk, this]
      · have hrest : ∀ v, lookupA rest k = some v → f v = v := by
          intro v hv
          exact h v (by simpa [lookupA, hk] using hv)
        simp [updateA, hk, ih hrest]

theorem updateA_of_lookupA_none {l : List (α × β)} {k : α} {f : β → β}
    (h : lookupA l k = none) : updateA l k f = l := by
  apply updateA_of_fix
  intro v hv
  rw [h] at hv
  cases hv

theorem mem_updateA {l : List (α × β)} {k : α} {f : β → β} {p : α × β}
    (h : p ∈ updateA l k f) : p ∈ l ∨ ∃ v, (k, v) ∈ l ∧ p = (k, f v) := by
  induction l with
  | nil => simp [updateA] at h
  | cons q rest ih =>
      obtain ⟨k₀, v₀⟩ := q
      by_cases hk : k₀ = k
      · subst hk
        simp [updateA] at h
        rcases h with h | h
        · exact Or.inr ⟨v₀, by simp, h⟩
        · exact Or.inl (by simp [h])
      · simp [updateA, hk] at h
        rcases h with h | h
        · exact Or.inl (by simp [h])
        · rcases ih h with h' | ⟨v, hv, hp⟩
          · exact Or.inl (by simp [h'])
          · exact Or.inr ⟨v, by simp [hv], hp⟩

end AssocLemmas

/- ===================== registry lemmas ===================== -/

theorem nodupKeys_bucketOf {m : LobbyWebSocketManager} (hWF : RegistryWF m)
    (lobby_id : Int) : NodupKeys (m.bucketOf lobby_id) := by
  unfold LobbyWebSocketManager.bucketOf
  cases hlk : lookupA m.connections lobby_id with
  | none => simp [NodupKeys]
  | some lobby => exact hWF.2 _ (mem_of_lookupA hlk)

theorem bucketOf_connect_self (m : LobbyWebSocketManager) (l : Int)
    (s : String) (n : Nat) :
    (m.connect l s n).bucketOf l = insertA (m.bucketOf l) s n := by
  simp [LobbyWebSocketManager.connect, LobbyWebSocketManager.bucketOf,
    lookupA_insertA_self]

theorem bucketOf_connect_ne (m : LobbyWebSocketManager) {l l' : Int}
    (s : String) (n : Nat) (h : l' ≠ l) :
    (m.connect l s n).bucketOf l' = m.bucketOf l' := by
  simp [LobbyWebSocketManager.connect, LobbyWebSocketManager.bucketOf,
    lookupA_insertA_ne _ _ _ _ h]

theorem present_connect (m : LobbyWebSocketManager) (l' : Int) (s' : String)
    (n : Nat) (l : Int) (s : String) :
    (m.connect l' s' n).present l s =
      if l' = l ∧ s' = s then true else m.present l s := by
  by_cases hl : l' = l
  · subst hl
    by_cases hs : s' = s
    · subst hs
      simp [LobbyWebSocketManager.present, bucketOf_connect_self,
        lookupA_insertA_self]
    · have hne : s ≠ s' := fun hh => hs hh.symm
      simp [LobbyWebSocketManager.present, bucketOf_connect_self,
        lookupA_insertA_ne _ _ _ _ hne, hs]
  · have hne : l ≠ l' := fun hh => hl hh.symm
    simp [LobbyWebSocketManager.present, bucketOf_connect_ne m s' n hne, hl]

theorem present_disconnect {m : LobbyWebSocketManager} (hWF : RegistryWF m)
    (l' : Int) (s' : String) (l : Int) (s : String) :
    (m.disconnect l' s').present l s =
      if l' = l ∧ s' = s then false else m.present l s := by
  unfold LobbyWebSocketManager.disconnect
  cases hlk : lookupA m.connections l' with
  | none =>
      by_cases hl : l' = l
      · subst hl
        have hb : m.bucketOf l' = [] := by
          simp [LobbyWebSocketManager.bucketOf, hlk]
        by_cases hs : s' = s <;>
          simp [LobbyWebSocketManager.present, hb, lookupA, hs]
      · simp [LobbyWebSocketManager.present, hl]
  | some lobby =>
      have hnl : NodupKeys lobby := hWF.2 _ (mem_of_lookupA hlk)
      have hb : m.bucketOf l' = lobby := by
        simp [LobbyWebSocketManager.bucketOf, hlk]
      simp only []
      by_cases hemp : (removeA lobby s').isEmpty
      · have hnil : removeA lobby s' = [] := by
          simpa using hemp
        simp only [hemp, if_true]
        by_cases hl : l' = l
        · subst hl
          have hrm : lookupA (removeA m.connections l') l' = none :=
            lookupA_removeA_self hWF.1
          have hbr : (LobbyWebSocketManager.mk (removeA m.connections l')
              m.admin_manager).bucketOf l' = [] := by
            simp [LobbyWebSocketManager.bucketOf, hrm]
          by_cases hs : s' = s
          · subst hs
            simp [LobbyWebSocketManager.present, hbr, lookupA]
          · rcases removeA_eq_nil hnil with hcase | ⟨v, hcase⟩
            · simp [LobbyWebSocketManager.present, hbr, lookupA, hs, hb, hcase]
            · simp [LobbyWebSocketManager.present, hbr, lookupA, hs, hb, hcase]
        · have hne : l ≠ l' := fun hh => hl hh.symm
          have hbr : (LobbyWebSocketManager.mk (removeA m.connections l')
              m.admin_manager).bucketOf l = m.bucketOf l := by
            simp [LobbyWebSocketManager.bucketOf, lookupA_removeA_ne _ _ _ hne]
          simp [LobbyWebSocketManager.present, hbr, hl]
      · simp only [hemp, if_false]
        by_cases hl : l' = l
        · subst hl
          have hbr : (LobbyWebSocketManager.mk
              (insertA m.connections l' (removeA lobby s'))
              m.admin_manager).bucketOf l' = removeA lobby s' := by
            simp [LobbyWebSocketManager.bucketOf, lookupA_insertA_self]
          by_cases hs : s' = s
          · subst hs
            simp [LobbyWebSocketManager.present, hbr,
              lookupA_removeA_self hnl]
          · have hne : s ≠ s' := fun hh => hs hh.symm
            simp [LobbyWebSocketManager.present, hbr,
              lookupA_removeA_ne _ _ _ hne, hs, hb]
        · have hne : l ≠ l' := fun hh => hl hh.symm
          have hbr : (LobbyWebSocketManager.mk
              (insertA m.connections l' (removeA lobby s'))
              m.admin_manager).bucketOf l = m.bucketOf l := by
            simp [LobbyWebSocketManager.bucketOf,
              lookupA_insertA_ne _ _ _ _ hne]
          simp [LobbyWebSocketManager.present, hbr, hl]

theorem wf_connect {m : LobbyWebSocketManager} (hWF : RegistryWF m)
    (l : Int) (s : String) (n : Nat) : RegistryWF (m.connect l s n) := by
  constructor
  · exact nodupKeys_insertA _ _ hWF.1
  · intro p hp
    rcases mem_insertA hp with h | h
    · rw [h]
      exact nodupKeys_insertA _ _ (nodupKeys_bucketOf hWF l)
    · exact hWF.2 p h

theorem wf_disconnect {m : LobbyWebSocketManager} (hWF : RegistryWF m)
    (l : Int) (s : String) : RegistryWF (m.disconnect l s) := by
  unfold LobbyWebSocketManager.disconnect
  cases hlk : lookupA m.connections l with
  | none => exact hWF
  | some lobby =>
      have hnl : NodupKeys lobby := hWF.2 _ (mem_of_lookupA hlk)
      by_cases hemp : (removeA lobby s).isEmpty
      · simp only [hemp, if_true]
        exact ⟨nodupKeys_removeA _ hWF.1, fun p hp => hWF.2 p (mem_removeA hp)⟩
      · simp only [hemp, if_false]
        constructor
        · exact nodupKeys_insertA _ _ hWF.1
        · intro p hp
          rcases mem_insertA hp with h | h
          · rw [h]
            exact nodupKeys_removeA _ hnl
          · exact hWF.2 p h

theorem wf_empty : RegistryWF emptyManager := by
  constructor <;> simp [emptyManager, NodupKeys]

theorem noEmpty_connect {m : LobbyWebSocketManager} (h : noEmptyBuckets m)
    (l : Int) (s : String) (n : Nat) : noEmptyBuckets (m.connect l s n) := by
  intro p hp
  rcases mem_insertA hp with hc | hc
  · rw [hc]
    exact insertA_ne_nil _ _ _
  · exact h p hc

theorem noEmpty_disconnect {m : LobbyWebSocketManager} (h : noEmptyBuckets m)
    (l : Int) (s : String) : noEmptyBuckets (m.disconnect l s) := by
  unfold LobbyWebSocketManager.disconnect
  cases hlk : lookupA m.connections l with
  | none => exact h
  | some lobby =>
      by_cases hemp : (removeA lobby s).isEmpty
      · simp only [hemp, if_true]
        exact fun p hp => h p (mem_removeA hp)
      · simp only [hemp, if_false]
        intro p hp
        rcases mem_insertA hp with hc | hc
        · rw [hc]
          simpa using hemp
        · exact h p hc

theorem disconnect_absent {m : LobbyWebSocketManager} (hne : noEmptyBuckets m)
    {l : Int} {s : String} (h : m.present l s = false) :
    m.disconnect l s = m := by
  unfold LobbyWebSocketManager.disconnect
  cases hlk : lookupA m.connections l with
  | none => rfl
  | some lobby =>
      have hb : m.bucketOf l = lobby := by
        simp [LobbyWebSocketManager.bucketOf, hlk]
      have hlook : lookupA lobby s = none := by
        have := h
        unfold LobbyWebSocketManager.present at this
        rw [hb] at this
        cases hc : lookupA lobby s with
        | none => rfl
        | some v => rw [hc] at this; simp at this
      have hrm : removeA lobby s = lobby := removeA_of_lookupA_none hlook
      have hemp : lobby.isEmpty = false := by
        simpa using hne _ (mem_of_lookupA hlk)
      simp [hrm, hemp, insertA_of_lookupA_some hlk]

/- ===================== delivery lemmas ===================== -/

theorem deliveredTo_append (o₁ o₂ : List Output) (r : Recipient) :
    deliveredTo (o₁ ++ o₂) r = deliveredTo o₁ r ++ deliveredTo o₂ r := by
  simp [deliveredTo]

theorem sendTargets_append (o₁ o₂ : List Output) :
    sendTargets (o₁ ++ o₂) = sendTargets o₁ ++ sendTargets o₂ := by
  simp [sendTargets]

theorem deliveredTo_sendAll (rs : List Recipient) (e : WsEvent)
    (fails : Recipient → Bool) (r : Recipient) :
    deliveredTo (sendAll rs e fails) r = List.replicate (rs.count r) e := by
  induction rs with
  | nil => simp [sendAll, deliveredTo]
  | cons r' rest ih =>
      by_cases hr : r' = r
      · subst hr
        cases hf : fails r' <;>
          simp [sendAll, deliveredTo, List.count_cons, hf, List.replicate_succ] <;>
          simpa [sendAll, deliveredTo] using ih
      · cases hf : fails r' <;>
          simp [sendAll, deliveredTo, List.count_cons, hf, hr] <;>
          simpa [sendAll, deliveredTo] using ih

theorem sendTargets_sendAll (rs : List Recipient) (e : WsEvent)
    (fails : Recipient → Bool) :
    sendTargets (sendAll rs e fails) = rs := by
  induction rs with
  | nil => simp [sendAll, sendTargets]
  | cons r' rest ih =>
      cases hf : fails r' <;>
        simp [sendAll, sendTargets, hf] <;>
        simpa [sendAll, sendTargets] using ih

theorem mem_sendAll {rs : List Recipient} {r : Recipient} (e : WsEvent)
    (fails : Recipient → Bool) (h : r ∈ rs) :
    Output.sendAttempt r e ∈ sendAll rs e fails := by
  induction rs with
  | nil => simp at h
  | cons r' rest ih =>
      rcases List.mem_cons.mp h with h' | h'
      · subst h'
        simp [sendAll]
      · simp only [sendAll, List.flatMap_cons, List.mem_append]
        exact Or.inr (by simpa [sendAll] using ih h')

theorem broadcast_outs (m : LobbyWebSocketManager) (lobby_id : Int)
    (e : WsEvent) (fails : Recipient → Bool) :
    (m.broadcast_to_lobby lobby_id e fails).2 =
      sendAll (m.recipients lobby_id) e fails := by
  simp [LobbyWebSocketManager.broadcast_to_lobby,
    AdminWebSocketManager.broadcast_to_lobby, LobbyWebSocketManager.recipients,
    sendAll]

theorem deliveredTo_broadcast (m : LobbyWebSocketManager) (lobby_id : Int)
    (e : WsEvent) (fails : Recipient → Bool) (r : Recipient) :
    deliveredTo (m.broadcast_to_lobby lobby_id e fails).2 r =
      List.replicate ((m.recipients lobby_id).count r) e := by
  rw [broadcast_outs, deliveredTo_sendAll]

theorem sendTargets_broadcast (m : LobbyWebSocketManager) (lobby_id : Int)
    (e : WsEvent) (fails : Recipient → Bool) :
    sendTargets (m.broadcast_to_lobby lobby_id e fails).2 =
      m.recipients lobby_id := by
  rw [broadcast_outs, sendTargets_sendAll]

/- ===================== admin subscription lemmas ===================== -/

theorem subscribe_idem (a : AdminWebSocketManager) (sid : String)
    (lid : Int) :
    (a.subscribe_to_lobby sid lid).subscribe_to_lobby sid lid =
      a.subscribe_to_lobby sid lid := by
  unfold AdminWebSocketManager.subscribe_to_lobby
  cases ha : lookupA a.connections sid with
  | none =>
      simp [updateA_of_lookupA_none ha]
  | some c =>
      apply congrArg AdminWebSocketManager.mk
      apply updateA_of_fix
      intro v hv
      rw [lookupA_updateA_self, ha] at hv
      simp at hv
      by_cases hmem : lid ∈ c.subscribed_lobbies
      · rw [← hv]
        simp [hmem]
      · have hv' : v = { c with subscribed_lobbies := c.subscribed_lobbies ++ [lid] } := by
          rw [← hv]
          simp [hmem]
      /- lid is now a member, so the second update is the identity -/
        rw [hv']
        simp

theorem subsNodup_subscribe {a : AdminWebSocketManager} (h : SubsNodup a)
    (sid : String) (lid : Int) :
    SubsNodup (a.subscribe_to_lobby sid lid) := by
  intro p hp
  unfold AdminWebSocketManager.subscribe_to_lobby at hp
  rcases mem_updateA hp with hc | ⟨v, hv, hpc⟩
  · exact h p hc
  · rw [hpc]
    by_cases hmem : lid ∈ v.subscribed_lobbies
    · simpa [hmem] using h _ hv
    · have hvn : v.subscribed_lobbies.Nodup := h _ hv
      simp [hmem, List.nodup_append, hvn]

theorem unsubscribe_not_mem {a : AdminWebSocketManager} {sid : String}
    {lid : Int}
    (h : ∀ c, lookupA a.connections sid = some c → lid ∉ c.subscribed_lobbies) :
    a.unsubscribe_from_lobby sid lid = a := by
  unfold AdminWebSocketManager.unsubscribe_from_lobby
  apply congrArg AdminWebSocketManager.mk
  apply updateA_of_fix
  intro v hv
  have hnot : lid ∉ v.subscribed_lobbies := h v hv
  have hfil : List.filter (fun id => !decide (id = lid)) v.subscribed_lobbies =
      v.subscribed_lobbies := by
    apply List.filter_eq_self.mpr
    intro x hx
    simp only [Bool.not_eq_true', decide_eq_false_iff_not]
    intro hxl
    rw [hxl] at hx
    exact hnot hx
  simp [hfil]

/- ===================== lock-trace lemmas ===================== -/

/-- The held bit after a trace runs. -/
def heldAfter (w : LockId) (tr : List LockEvent) (h : Bool) : Bool :=
  tr.foldl (lockStep w) h

theorem sendsHeld_append (w : LockId) (t₁ t₂ : List LockEvent) (h : Bool) :
    sendsHeld w (t₁ ++ t₂) h =
      sendsHeld w t₁ h ++ sendsHeld w t₂ (heldAfter w t₁ h) := by
  induction t₁ generalizing h with
  | nil => simp [sendsHeld, heldAfter]
  | cons e t₁ ih => simp [sendsHeld, heldAfter, List.foldl_cons, ih]

theorem heldAfter_append (w : LockId) (t₁ t₂ : List LockEvent) (h : Bool) :
    heldAfter w (t₁ ++ t₂) h = heldAfter w t₂ (heldAfter w t₁ h) := by
  simp [heldAfter, List.foldl_append]

theorem sendsHeld_sendSeg {γ : Type} (w : LockId) (mk : γ → Recipient)
    (xs : List γ) (h : Bool) (hw : ∀ x, LockId.connLock (mk x) ≠ w) :
    sendsHeld w (xs.flatMap (fun x =>
      [LockEvent.acquireWrite (LockId.connLock (mk x)),
       LockEvent.sendOn (mk x),
       LockEvent.release (LockId.connLock (mk x))])) h =
      xs.map (fun x => (mk x, h)) := by
  induction xs with
  | nil => simp [sendsHeld]
  | cons x xs ih =>
      have hb : sendsHeld w
          [LockEvent.acquireWrite (LockId.connLock (mk x)),
           LockEvent.sendOn (mk x),
           LockEvent.release (LockId.connLock (mk x))] h = [(mk x, h)] := by
        simp [sendsHeld, lockStep, hw x]
      have ha : heldAfter w
          [LockEvent.acquireWrite (LockId.connLock (mk x)),
           LockEvent.sendOn (mk x),
           LockEvent.release (LockId.connLock (mk x))] h = h := by
        simp [heldAfter, lockStep, hw x]
      rw [List.flatMap_cons, sendsHeld_append, hb, ha, ih, List.map_cons]
      rfl

theorem heldAfter_sendSeg {γ : Type} (w : LockId) (mk : γ → Recipient)
    (xs : List γ) (h : Bool) (hw : ∀ x, LockId.connLock (mk x) ≠ w) :
    heldAfter w (xs.flatMap (fun x =>
      [LockEvent.acquireWrite (LockId.connLock (mk x)),
       LockEvent.sendOn (mk x),
       LockEvent.release (LockId.connLock (mk x))])) h = h := by
  induction xs with
  | nil => simp [heldAfter]
  | cons x xs ih =>
      have ha : heldAfter w
          [LockEvent.acquireWrite (LockId.connLock (mk x)),
           LockEvent.sendOn (mk x),
           LockEvent.release (LockId.connLock (mk x))] h = h := by
        simp [heldAfter, lockStep, hw x]
      rw [List.flatMap_cons, heldAfter_append, ha, ih]

theorem sendsHeld_checkSeg {γ : Type} (w : LockId) (mk : γ → Recipient)
    (xs : List γ) (h : Bool) :
    sendsHeld w (xs.flatMap (fun x =>
      [LockEvent.acquireRead (LockId.connLock (mk x)),
       LockEvent.release (LockId.connLock (mk x))])) h = [] := by
  induction xs generalizing h with
  | nil => simp [sendsHeld]
  | cons x xs ih =>
      have hb : ∀ h' : Bool, sendsHeld w
          [LockEvent.acquireRead (LockId.connLock (mk x)),
           LockEvent.release (LockId.connLock (mk x))] h' = [] := by
        intro h'
        simp [sendsHeld]
      rw [List.flatMap_cons, sendsHeld_append, hb, ih]
      rfl

theorem heldAfter_checkSeg {γ : Type} (w : LockId) (mk : γ → Recipient)
    (xs : List γ) (h : Bool) (hw : ∀ x, LockId.connLock (mk x) ≠ w) :
    heldAfter w (xs.flatMap (fun x =>
      [LockEvent.acquireRead (LockId.connLock (mk x)),
       LockEvent.release (LockId.connLock (mk x))])) h = h := by
  induction xs with
  | nil => simp [heldAfter]
  | cons x xs ih =>
      have ha : heldAfter w
          [LockEvent.acquireRead (LockId.connLock (mk x)),
           LockEvent.release (LockId.connLock (mk x))] h = h := by
        simp [heldAfter, lockStep, hw x]
      rw [List.flatMap_cons, heldAfter_append, ha, ih]

/-- In the admin broadcast, the admin-registry read lock is dropped before
every send: the sends run with the registry lock free. -/
theorem sendsHeld_adminTrace_self (a : AdminWebSocketManager) (lobby_id : Int) :
    sendsHeld LockId.adminRegistry (adminBroadcastLockTrace a lobby_id) false =
      (a.subscribers lobby_id).map (fun p => (Recipient.admin p.1, false)) := by
  unfold adminBroadcastLockTrace
  simp only [sendsHeld_append, heldAfter_append]
  have ha1 : heldAfter LockId.adminRegistry
      [LockEvent.acquireRead LockId.adminRegistry] false = true := by
    simp [heldAfter, lockStep]
  rw [ha1, heldAfter_checkSeg _ _ _ _ (by intro x; simp)]
  have ha2 : heldAfter LockId.adminRegistry
      [LockEvent.release LockId.adminRegistry] true = false := by
    simp [heldAfter, lockStep]
  rw [ha2, sendsHeld_sendSeg _ _ _ _ (by intro x; simp), sendsHeld_checkSeg]
  simp [sendsHeld]

/-- Watched from the player-registry lock, the admin broadcast trace keeps
the held bit unchanged and records every admin send at that bit. -/
theorem sendsHeld_adminTrace_player (a : AdminWebSocketManager)
    (lobby_id : Int) (h : Bool) :
    sendsHeld LockId.playerRegistry (adminBroadcastLockTrace a lobby_id) h =
      (a.subscribers lobby_id).map (fun p => (Recipient.admin p.1, h)) := by
  unfold adminBroadcastLockTrace
  simp only [sendsHeld_append, heldAfter_append]
  have ha1 : heldAfter LockId.playerRegistry
      [LockEvent.acquireRead LockId.adminRegistry] h = h := by
    simp [heldAfter, lockStep]
  rw [ha1, heldAfter_checkSeg _ _ _ _ (by intro x; simp)]
  have ha2 : heldAfter LockId.playerRegistry
      [LockEvent.release LockId.adminRegistry] h = h := by
    simp [heldAfter, lockStep]
  rw [ha2, sendsHeld_sendSeg _ _ _ _ (by intro x; simp), sendsHeld_checkSeg]
  simp [sendsHeld]

/-- The held bit over the whole admin broadcast trace, watched from the
player-registry lock, is unchanged. -/
theorem heldAfter_adminTrace_player (a : AdminWebSocketManager)
    (lobby_id : Int) (h : Bool) :
    heldAfter LockId.playerRegistry (adminBroadcastLockTrace a lobby_id) h = h := by
  unfold adminBroadcastLockTrace
  simp only [heldAfter_append]
  have ha1 : heldAfter LockId.playerRegistry
      [LockEvent.acquireRead LockId.adminRegistry] h = h := by
    simp [heldAfter, lockStep]
  rw [ha1, heldAfter_checkSeg _ _ _ _ (by intro x; simp)]
  have ha2 : heldAfter LockId.playerRegistry
      [LockEvent.release LockId.adminRegistry] h = h := by
    simp [heldAfter, lockStep]
  rw [ha2, heldAfter_sendSeg _ _ _ _ (by intro x; simp)]

/-- In the player-lobby broadcast every send — to players and, through the
nested admin broadcast, to admins — runs while the player-registry read
lock is still held (the guard is function-scoped in the source). -/
theorem sendsHeld_playerTrace (m : LobbyWebSocketManager) (lobby_id : Int) :
    sendsHeld LockId.playerRegistry (playerBroadcastLockTrace m lobby_id) false =
      (match lookupA m.connections lobby_id with
        | none => []
        | some lobby =>
            lobby.map (fun p => (Recipient.player lobby_id p.1, true)))
      ++ (m.admin_manager.subscribers lobby_id).map
            (fun p => (Recipient.admin p.1, true)) := by
  unfold playerBroadcastLockTrace
  simp only [sendsHeld_append, heldAfter_append]
  have ha1 : heldAfter LockId.playerRegistry
      [LockEvent.acquireRead LockId.playerRegistry] false = true := by
    simp [heldAfter, lockStep]
  rw [ha1]
  cases hlk : lookupA m.connections lobby_id with
  | none =>
      simp only [hlk]
      have ha2 : heldAfter LockId.playerRegistry ([] : List LockEvent) true = true := by
        simp [heldAfter]
      rw [ha2, heldAfter_adminTrace_player, sendsHeld_adminTrace_player]
      simp [sendsHeld]
  | some lobby =>
      simp only [hlk]
      rw [sendsHeld_sendSeg _ _ _ _ (by intro x; simp),
        heldAfter_sendSeg _ _ _ _ (by intro x; simp)]
      rw [heldAfter_adminTrace_player, sendsHeld_adminTrace_player]
      simp [sendsHeld]

/- ===================== history lemmas (for C4) ===================== -/

theorem wf_applyOp {m : LobbyWebSocketManager} (hWF : RegistryWF m)
    (op : PlayerOp) : RegistryWF (applyOp m op) := by
  cases op with
  | connect l s n => exact wf_connect hWF l s n
  | disconnect l s => exact wf_disconnect hWF l s

theorem wf_applyOps (ops : List PlayerOp) :
    ∀ m : LobbyWebSocketManager, RegistryWF m → RegistryWF (applyOps m ops) := by
  induction ops with
  | nil => intro m h; exact h
  | cons op ops ih =>
      intro m h
      exact ih (applyOp m op) (wf_applyOp h op)

theorem present_applyOp {m : LobbyWebSocketManager} (hWF : RegistryWF m)
    (op : PlayerOp) (l : Int) (s : String) :
    (applyOp m op).present l s =
      (match op with
        | PlayerOp.connect l' s' _ =>
            if l' = l ∧ s' = s then true else m.present l s
        | PlayerOp.disconnect l' s' =>
            if l' = l ∧ s' = s then false else m.present l s) := by
  cases op with
  | connect l' s' n => exact present_connect m l' s' n l s
  | disconnect l' s' => exact present_disconnect hWF l' s' l s

theorem lastOpFold_cons (op : PlayerOp) (ops : List PlayerOp) (l : Int)
    (s : String) (b : Bool) :
    lastOpFold (op :: ops) l s b =
      lastOpFold ops l s
        (match op with
          | PlayerOp.connect l' s' _ => if l' = l ∧ s' = s then true else b
          | PlayerOp.disconnect l' s' => if l' = l ∧ s' = s then false else b) := by
  cases op <;> rfl

theorem present_applyOps (ops : List PlayerOp) :
    ∀ m : LobbyWebSocketManager, RegistryWF m → ∀ (l : Int) (s : String),
      (applyOps m ops).present l s = lastOpFold ops l s (m.present l s) := by
  induction ops with
  | nil => intro m _ l s; rfl
  | cons op ops ih =>
      intro m hWF l s
      have h1 : applyOps m (op :: ops) = applyOps (applyOp m op) ops := rfl
      rw [h1, ih (applyOp m op) (wf_applyOp hWF op) l s, lastOpFold_cons,
        present_applyOp hWF op l s]

theorem present_empty (l : Int) (s : String) :
    emptyManager.present l s = false := rfl

/- ===================== claims ===================== -/

/-- Claim C1 (amended): connect and disconnect preserve the registry
invariant that a lobby bucket exists only while nonempty — in particular
disconnect removes a bucket it empties immediately.  kick_player does not:
it leaves the bucket it empties in the map (see the counterexample), so the
invariant holds only for the connect/disconnect lifecycle. -/
theorem claim_C1_amended (m : LobbyWebSocketManager) (lobby_id : Int)
    (sid : String) (n : Nat) (h : noEmptyBuckets m) :
    noEmptyBuckets (m.connect lobby_id sid n) ∧
      noEmptyBuckets (m.disconnect lobby_id sid) :=
  ⟨noEmpty_connect h lobby_id sid n, noEmpty_disconnect h lobby_id sid⟩

/-- Claim C1 counterexample: kicking the only player of lobby 1 leaves an
empty bucket for lobby 1 behind, so kick does not remove emptied buckets. -/
theorem claim_C1_counterexample :
    (LobbyWebSocketManager.kick_player
      (LobbyWebSocketManager.mk [(1, [("a", 0)])] (AdminWebSocketManager.mk []))
      1 "a" neverFails).1.connections = [(1, [])] ∧
    ¬ noEmptyBuckets (LobbyWebSocketManager.kick_player
      (LobbyWebSocketManager.mk [(1, [("a", 0)])] (AdminWebSocketManager.mk []))
      1 "a" neverFails).1 := by
  constructor
  · decide
  · decide

/-- Claim C1 witness: a concrete state satisfying the invariant, kept by a
connect and by the bucket-emptying disconnect. -/
theorem claim_C1_witness :
    noEmptyBuckets ((LobbyWebSocketManager.mk [(1, [("a", 0)])]
      (AdminWebSocketManager.mk [])).connect 1 "a" 5) ∧
    noEmptyBuckets ((LobbyWebSocketManager.mk [(1, [("a", 0)])]
      (AdminWebSocketManager.mk [])).disconnect 1 "a") :=
  claim_C1_amended
    (LobbyWebSocketManager.mk [(1, [("a", 0)])] (AdminWebSocketManager.mk []))
    1 "a" 5 (by decide)

/-- Claim C2: the parts of the claim the code satisfies, and its
evaluation at the failing input kick(1, b) with lobby 1 holding only a.
With an unknown key, send_to_player does nothing, subscribe and
unsubscribe for an unknown admin session do nothing, and kick_player
changes no registry state and delivers no event; but kick is not silently
a no-op for its caller: its lock trace cannot complete — execution stops
at the final broadcast's read acquire while kick's own function-scoped
write guard is still held, so the call never returns (and no event
reaches a either). -/
theorem claim_C2_code_eval (m : LobbyWebSocketManager) (lobby_id : Int)
    (sid : String) (asid : String) (lid : Int) (e : WsEvent)
    (fails : Recipient → Bool) :
    (lookupA m.admin_manager.connections asid = none →
      m.admin_manager.subscribe_to_lobby asid lid = m.admin_manager ∧
      m.admin_manager.unsubscribe_from_lobby asid lid = m.admin_manager) ∧
    (lookupA (m.bucketOf lobby_id) sid = none →
      m.send_to_player lobby_id sid e fails = (m, []) ∧
      m.kick_player lobby_id sid fails = (m, [])) ∧
    (execTrace (kickLockTrace (LobbyWebSocketManager.mk [(1, [("a", 0)])]
        (AdminWebSocketManager.mk [])) 1 "b") [] ≠
      kickLockTrace (LobbyWebSocketManager.mk [(1, [("a", 0)])]
        (AdminWebSocketManager.mk [])) 1 "b") ∧
    (LockEvent.sendOn (Recipient.player 1 "a") ∉
      execTrace (kickLockTrace (LobbyWebSocketManager.mk [(1, [("a", 0)])]
        (AdminWebSocketManager.mk [])) 1 "b") []) := by
  refine ⟨fun ha => ⟨?_, ?_⟩, fun hkey => ?_, by decide, by decide⟩
  · simp [AdminWebSocketManager.subscribe_to_lobby, updateA_of_lookupA_none ha]
  · simp [AdminWebSocketManager.unsubscribe_from_lobby, updateA_of_lookupA_none ha]
  · have hs : ∀ ev : WsEvent, m.send_to_player lobby_id sid ev fails = (m, []) := by
      intro ev
      simp [LobbyWebSocketManager.send_to_player, hkey]
    have hr : m.kick_remove lobby_id sid = (m, []) := by
      unfold LobbyWebSocketManager.kick_remove
      cases hlk : lookupA m.connections lobby_id with
      | none => rfl
      | some lobby =>
          have hb : m.bucketOf lobby_id = lobby := by
            simp [LobbyWebSocketManager.bucketOf, hlk]
          have hnone : lookupA lobby sid = none := by rw [← hb]; exact hkey
          simp [hnone]
    exact ⟨hs e, by simp [LobbyWebSocketManager.kick_player, hs, hr]⟩

/-- Claim C2 witness: unknown-key operations at a concrete registry. -/
theorem claim_C2_witness :
    (LobbyWebSocketManager.mk [(1, [("a", 0)])]
      (AdminWebSocketManager.mk [])).admin_manager.subscribe_to_lobby "x" 7 =
      (LobbyWebSocketManager.mk [(1, [("a", 0)])]
        (AdminWebSocketManager.mk [])).admin_manager ∧
    (LobbyWebSocketManager.mk [(1, [("a", 0)])]
      (AdminWebSocketManager.mk [])).kick_player 1 "b" neverFails =
      (LobbyWebSocketManager.mk [(1, [("a", 0)])] (AdminWebSocketManager.mk []),
       []) :=
  ⟨((claim_C2_code_eval
      (LobbyWebSocketManager.mk [(1, [("a", 0)])] (AdminWebSocketManager.mk []))
      1 "b" "x" 7 (PlayerKickedEvent.new 1 "b") neverFails).1 (by decide)).1,
   ((claim_C2_code_eval
      (LobbyWebSocketManager.mk [(1, [("a", 0)])] (AdminWebSocketManager.mk []))
      1 "b" "x" 7 (PlayerKickedEvent.new 1 "b") neverFails).2.1 (by decide)).2⟩

/-- Claim C3: evaluating kick_player's lock behaviour at a lobby with the
two players a and b, kicking a.  The broadcast send to b is part of the
intended trace, but execution stops before it: the nested broadcast
re-acquires the registry read lock while kick_player's own function-scoped
write guard is still held, so the trace cannot complete — b never receives
the player_kicked event, although a was notified and closed first, exactly
as the claim's ordering describes. -/
theorem claim_C3_code_eval :
    LockEvent.sendOn (Recipient.player 1 "b") ∈
      kickLockTrace (LobbyWebSocketManager.mk [(1, [("a", 0), ("b", 1)])]
        (AdminWebSocketManager.mk [])) 1 "a" ∧
    execTrace (kickLockTrace (LobbyWebSocketManager.mk [(1, [("a", 0), ("b", 1)])]
        (AdminWebSocketManager.mk [])) 1 "a") [] ≠
      kickLockTrace (LobbyWebSocketManager.mk [(1, [("a", 0), ("b", 1)])]
        (AdminWebSocketManager.mk [])) 1 "a" ∧
    LockEvent.sendOn (Recipient.player 1 "b") ∉
      execTrace (kickLockTrace (LobbyWebSocketManager.mk [(1, [("a", 0), ("b", 1)])]
        (AdminWebSocketManager.mk [])) 1 "a") [] ∧
    LockEvent.sendOn (Recipient.player 1 "a") ∈
      execTrace (kickLockTrace (LobbyWebSocketManager.mk [(1, [("a", 0), ("b", 1)])]
        (AdminWebSocketManager.mk [])) 1 "a") [] ∧
    LockEvent.closeOn (Recipient.player 1 "a") ∈
      execTrace (kickLockTrace (LobbyWebSocketManager.mk [(1, [("a", 0), ("b", 1)])]
        (AdminWebSocketManager.mk [])) 1 "a") [] := by
  refine ⟨by decide, by decide, by decide, by decide, by decide⟩

/-- Claim C4: starting from the empty registry, after any finite sequence
of connect/disconnect operations a key is present exactly when its last
operation in the sequence is a connect; every reachable state has
duplicate-free keys (at most one connection per key); a connect for a key
makes its sink the stored one, replacing any prior entry; and on any state
without empty buckets — which all connect/disconnect-reachable states are —
a disconnect for an absent key changes nothing. -/
theorem claim_C4 :
    (∀ (ops : List PlayerOp) (l : Int) (s : String),
      (applyOps emptyManager ops).present l s = lastOpConnect ops l s) ∧
    (∀ ops : List PlayerOp, RegistryWF (applyOps emptyManager ops)) ∧
    (∀ (m : LobbyWebSocketManager) (l : Int) (s : String) (n : Nat),
      lookupA ((m.connect l s n).bucketOf l) s = some n) ∧
    (∀ (m : LobbyWebSocketManager) (l : Int) (s : String),
      noEmptyBuckets m → m.present l s = false → m.disconnect l s = m) := by
  refine ⟨?_, ?_, ?_, ?_⟩
  · intro ops l s
    rw [present_applyOps ops emptyManager wf_empty l s, present_empty]
    rfl
  · intro ops
    exact wf_applyOps ops emptyManager wf_empty
  · intro m l s n
    rw [bucketOf_connect_self, lookupA_insertA_self]
  · intro m l s hne hp
    exact disconnect_absent hne hp

/-- Claim C4 witness: a two-operation history whose key ends absent, and a
concrete disconnect of an absent key leaving the registry unchanged. -/
theorem claim_C4_witness :
    (applyOps emptyManager
      [PlayerOp.connect 1 "a" 0, PlayerOp.disconnect 1 "a"]).present 1 "a" =
      lastOpConnect [PlayerOp.connect 1 "a" 0, PlayerOp.disconnect 1 "a"] 1 "a" ∧
    (LobbyWebSocketManager.mk [(1, [("a", 0)])]
      (AdminWebSocketManager.mk [])).disconnect 2 "z" =
      LobbyWebSocketManager.mk [(1, [("a", 0)])] (AdminWebSocketManager.mk []) :=
  ⟨claim_C4.1 [PlayerOp.connect 1 "a" 0, PlayerOp.disconnect 1 "a"] 1 "a",
   claim_C4.2.2.2
     (LobbyWebSocketManager.mk [(1, [("a", 0)])] (AdminWebSocketManager.mk []))
     2 "z" (by decide) (by decide)⟩

/-- Claim C5: subscribing an admin to the same lobby twice yields exactly
the state the first subscribe produced; subscription sets never acquire
duplicate entries; and unsubscribing a lobby the admin is not subscribed to
leaves the whole registry unchanged (the operation is total, so no error is
raised). -/
theorem claim_C5 (a : AdminWebSocketManager) (sid : String) (lid : Int) :
    (a.subscribe_to_lobby sid lid).subscribe_to_lobby sid lid =
      a.subscribe_to_lobby sid lid ∧
    (SubsNodup a → SubsNodup (a.subscribe_to_lobby sid lid)) ∧
    ((∀ c, lookupA a.connections sid = some c → lid ∉ c.subscribed_lobbies) →
      a.unsubscribe_from_lobby sid lid = a) :=
  ⟨subscribe_idem a sid lid,
   fun h => subsNodup_subscribe h sid lid,
   fun h => unsubscribe_not_mem h⟩

/-- Claim C5 witness: idempotent subscribe and no-op unsubscribe at a
concrete one-admin registry. -/
theorem claim_C5_witness :
    ((AdminWebSocketManager.mk [("x", AdminConnection.mk 0 [2])]).subscribe_to_lobby
        "x" 7).subscribe_to_lobby "x" 7 =
      (AdminWebSocketManager.mk [("x", AdminConnection.mk 0 [2])]).subscribe_to_lobby
        "x" 7 ∧
    SubsNodup ((AdminWebSocketManager.mk
      [("x", AdminConnection.mk 0 [2])]).subscribe_to_lobby "x" 7) ∧
    (AdminWebSocketManager.mk [("x", AdminConnection.mk 0 [2])]).unsubscribe_from_lobby
        "x" 9 =
      AdminWebSocketManager.mk [("x", AdminConnection.mk 0 [2])] :=
  ⟨(claim_C5 (AdminWebSocketManager.mk [("x", AdminConnection.mk 0 [2])]) "x" 7).1,
   (claim_C5 (AdminWebSocketManager.mk [("x", AdminConnection.mk 0 [2])]) "x" 7).2.1
     (by decide),
   (claim_C5 (AdminWebSocketManager.mk [("x", AdminConnection.mk 0 [2])]) "x" 9).2.2
     (by intro c hc; simp [lookupA] at hc; rw [← hc]; decide)⟩

/-- Claim C6: a lobby-level broadcast attempts delivery to exactly the
lobby's players plus the admins subscribed to the lobby and to no one else,
for every transport-failure pattern; the admin batch is a suffix of the
outputs — attempted whatever happens on the player side, whose failures
only log — and a broadcast with no recipients produces no output at all. -/
theorem claim_C6 (m : LobbyWebSocketManager) (lobby_id : Int) (e : WsEvent)
    (fails : Recipient → Bool) :
    sendTargets (m.broadcast_to_lobby lobby_id e fails).2 =
      m.recipients lobby_id ∧
    (m.admin_manager.broadcast_to_lobby lobby_id e fails).2 <:+
      (m.broadcast_to_lobby lobby_id e fails).2 ∧
    (m.recipients lobby_id = [] →
      (m.broadcast_to_lobby lobby_id e fails).2 = []) := by
  refine ⟨sendTargets_broadcast m lobby_id e fails,
    List.suffix_append _ _,
    fun h => ?_⟩
  rw [broadcast_outs, h]
  rfl

/-- Claim C6 witness: a lobby with no players and no subscribed admins
broadcasts nothing. -/
theorem claim_C6_witness :
    (LobbyWebSocketManager.mk []
      (AdminWebSocketManager.mk [("x", AdminConnection.mk 0 [2])])).recipients 1 =
      [] ∧
    ((LobbyWebSocketManager.mk []
      (AdminWebSocketManager.mk [("x", AdminConnection.mk 0 [2])])).broadcast_to_lobby
        1 (PlayerKickedEvent.new 1 "a") neverFails).2 = [] :=
  ⟨by decide,
   (claim_C6 (LobbyWebSocketManager.mk []
      (AdminWebSocketManager.mk [("x", AdminConnection.mk 0 [2])]))
      1 (PlayerKickedEvent.new 1 "a") neverFails).2.2 (by decide)⟩

/-- Claim C7: during a broadcast every current recipient gets its send
attempt whatever transport failures occur elsewhere — a failing send never
suppresses the attempts to the remaining recipients — and the broadcast
leaves the registry state untouched (failures only log and the operation
is total, so nothing propagates to the caller). -/
theorem claim_C7 (m : LobbyWebSocketManager) (lobby_id : Int) (e : WsEvent)
    (fails : Recipient → Bool) (r : Recipient)
    (h : r ∈ m.recipients lobby_id) :
    Output.sendAttempt r e ∈ (m.broadcast_to_lobby lobby_id e fails).2 ∧
    (m.broadcast_to_lobby lobby_id e fails).1 = m := by
  constructor
  · rw [broadcast_outs]
    exact mem_sendAll e fails h
  · rfl

/-- Claim C7 witness: with a's transport failing, b still gets its send
attempt of the broadcast to lobby 1. -/
theorem claim_C7_witness :
    Recipient.player 1 "b" ∈
      (LobbyWebSocketManager.mk [(1, [("a", 0), ("b", 1)])]
        (AdminWebSocketManager.mk [])).recipients 1 ∧
    Output.sendAttempt (Recipient.player 1 "b") (PlayerKickedEvent.new 1 "z") ∈
      ((LobbyWebSocketManager.mk [(1, [("a", 0), ("b", 1)])]
        (AdminWebSocketManager.mk [])).broadcast_to_lobby 1
          (PlayerKickedEvent.new 1 "z")
          (fun r => decide (r = Recipient.player 1 "a"))).2 :=
  ⟨by decide,
   (claim_C7 (LobbyWebSocketManager.mk [(1, [("a", 0), ("b", 1)])]
      (AdminWebSocketManager.mk [])) 1 (PlayerKickedEvent.new 1 "z")
      (fun r => decide (r = Recipient.player 1 "a"))
      (Recipient.player 1 "b") (by decide)).1⟩

/-- Claim C8 (amended): only the admin-registry broadcast snapshots its
recipients and releases the registry read lock before sending; the
player-registry broadcast instead holds the registry read lock across
every send it performs — the player sends and the nested admin sends — so
a slow recipient there blocks the registry, not only its own delivery.
Each send does write-hold only the target connection's own lock. -/
theorem claim_C8_amended (m : LobbyWebSocketManager)
    (a : AdminWebSocketManager) (lobby_id : Int) :
    (∀ p ∈ sendsHeld LockId.adminRegistry
        (adminBroadcastLockTrace a lobby_id) false, p.2 = false) ∧
    (∀ p ∈ sendsHeld LockId.playerRegistry
        (playerBroadcastLockTrace m lobby_id) false, p.2 = true) := by
  constructor
  · intro p hp
    rw [sendsHeld_adminTrace_self] at hp
    rcases List.mem_map.mp hp with ⟨x, _, hx⟩
    rw [← hx]
  · intro p hp
    rw [sendsHeld_playerTrace] at hp
    cases hlk : lookupA m.connections lobby_id with
    | none =>
        simp only [hlk, List.nil_append] at hp
        rcases List.mem_map.mp hp with ⟨x, _, hx⟩
        rw [← hx]
    | some lobby =>
        simp only [hlk] at hp
        rcases List.mem_append.mp hp with h | h
        · rcases List.mem_map.mp h with ⟨x, _, hx⟩
          rw [← hx]
        · rcases List.mem_map.mp h with ⟨x, _, hx⟩
          rw [← hx]

/-- Claim C8 counterexample: in the player-registry broadcast to lobby 1
the send to player a runs while the registry read lock is held, refuting
the claimed snapshot-then-release discipline for the player registry. -/
theorem claim_C8_counterexample :
    (Recipient.player 1 "a", true) ∈
      sendsHeld LockId.playerRegistry
        (playerBroadcastLockTrace
          (LobbyWebSocketManager.mk [(1, [("a", 0)])]
            (AdminWebSocketManager.mk [])) 1) false := by
  decide

/-- Claim C8 witness: one admin send of the admin broadcast runs with the
admin registry lock free, one player send of the player broadcast runs
with the player registry lock held. -/
theorem claim_C8_witness :
    ((Recipient.admin "y", false) ∈ sendsHeld LockId.adminRegistry
      (adminBroadcastLockTrace
        (AdminWebSocketManager.mk [("y", AdminConnection.mk 0 [1])]) 1) false ∧
     ((Recipient.admin "y", false) : Recipient × Bool).2 = false) ∧
    ((Recipient.player 2 "c", true) ∈ sendsHeld LockId.playerRegistry
      (playerBroadcastLockTrace
        (LobbyWebSocketManager.mk [(2, [("c", 0)])]
          (AdminWebSocketManager.mk [])) 2) false ∧
     ((Recipient.player 2 "c", true) : Recipient × Bool).2 = true) :=
  ⟨⟨by decide,
    (claim_C8_amended (LobbyWebSocketManager.mk [] (AdminWebSocketManager.mk []))
      (AdminWebSocketManager.mk [("y", AdminConnection.mk 0 [1])]) 1).1
      (Recipient.admin "y", false) (by decide)⟩,
   ⟨by decide,
    (claim_C8_amended (LobbyWebSocketManager.mk [(2, [("c", 0)])]
        (AdminWebSocketManager.mk [])) (AdminWebSocketManager.mk []) 2).2
      (Recipient.player 2 "c", true) (by decide)⟩⟩

/-- Claim C9: the create-teams broadcast loop over the lobby's N players
delivers to every recipient currently counted once in the lobby's
recipient set exactly N team_assigned events, one per player in order,
each carrying that player's session id — because every per-player event is
addressed with broadcast_to_lobby, reaching the whole lobby. -/
theorem claim_C9 (m : LobbyWebSocketManager) (lobby_id : Int)
    (players : List String) (fails : Recipient → Bool) (r : Recipient)
    (h : (m.recipients lobby_id).count r = 1) :
    deliveredTo (create_teams_broadcasts m lobby_id players fails) r =
      players.map (fun sid => TeamAssignedEvent.new lobby_id sid) ∧
    (deliveredTo (create_teams_broadcasts m lobby_id players fails) r).length =
      players.length := by
  have hmain : deliveredTo (create_teams_broadcasts m lobby_id players fails) r =
      players.map (fun sid => TeamAssignedEvent.new lobby_id sid) := by
    induction players with
    | nil => simp [create_teams_broadcasts, deliveredTo]
    | cons p ps ih =>
        have hsplit : create_teams_broadcasts m lobby_id (p :: ps) fails =
            (m.broadcast_to_lobby lobby_id
              (TeamAssignedEvent.new lobby_id p) fails).2 ++
              create_teams_broadcasts m lobby_id ps fails := by
          simp [create_teams_broadcasts]
        rw [hsplit, deliveredTo_append, deliveredTo_broadcast, h, ih]
        simp
  exact ⟨hmain, by rw [hmain]; simp⟩

/-- Claim C9 witness: with players a and b in lobby 1, the player a
receives both team_assigned events, in player order. -/
theorem claim_C9_witness :
    ((LobbyWebSocketManager.mk [(1, [("a", 0), ("b", 1)])]
      (AdminWebSocketManager.mk [])).recipients 1).count
        (Recipient.player 1 "a") = 1 ∧
    deliveredTo (create_teams_broadcasts
      (LobbyWebSocketManager.mk [(1, [("a", 0), ("b", 1)])]
        (AdminWebSocketManager.mk [])) 1 ["a", "b"] neverFails)
      (Recipient.player 1 "a") =
      ["a", "b"].map (fun sid => TeamAssignedEvent.new 1 sid) :=
  ⟨by decide,
   (claim_C9 (LobbyWebSocketManager.mk [(1, [("a", 0), ("b", 1)])]
      (AdminWebSocketManager.mk [])) 1 ["a", "b"] neverFails
      (Recipient.player 1 "a") (by decide)).1⟩

/-- Claim C10: an admin connect for an already-registered webSessionId
replaces the stored entry entirely: afterwards the registry maps that
session id to the new sink with an empty subscription list, so a
reconnecting admin keeps none of its prior lobby subscriptions. -/
theorem claim_C10 (a : AdminWebSocketManager) (web_session_id : String)
    (snd_tok : Nat) :
    lookupA (a.connect web_session_id snd_tok).connections web_session_id =
      some (AdminConnection.mk snd_tok []) :=
  lookupA_insertA_self _ _ _

end RaddleTeams
